import Mathlib

/-!
Shallow embedding of the go-iokit-powertelemetry repository.

The repository contains two revisions of the same library: package `power`
(power/telemetry.go) and package `iokit` (iokit/battery.go).  Both are
embedded here, in namespaces `power` and `iokit`.

Modelling conventions:
* Go `float64` arithmetic is modelled as exact rational arithmetic over `ℚ`
  (all quantities involved are small, and the spec's formulas are exact);
  in this model every value is a finite rational, so no NaN or infinity can
  arise.
* Go `int` and C `long` values are modelled as `ℤ`, C array lengths as `ℕ`.
* The CGO record reader (`get_all_battery_info`) performs per-field
  extraction with zero defaults; `RawRecord` models the already-extracted
  property values, except for the cell-voltage array, which is kept at its
  reported (arbitrary) length so that the 16-entry cap of
  `get_long_array_prop` is part of the model.
* The C reader's return code is modelled as an explicit `ret : ℤ` input to
  `GetBatteryInfo` (0 = success, 1..4 = the four failure sub-reasons).
-/

/-- Model of Go `math.Round`: rounds to the nearest integer, halves away
from zero. -/
def mathRound (q : ℚ) : ℤ := if q < 0 then -⌊-q + 1 / 2⌋ else ⌊q + 1 / 2⌋

/-- Model of Go `math.Trunc`: truncates toward zero. -/
def mathTrunc (q : ℚ) : ℤ := if q < 0 then ⌈q⌉ else ⌊q⌋

/-- The `truncate` closure of `calculateDerivedMetrics`
(power/telemetry.go 329-331): `math.Trunc(f*100) / 100`. -/
def truncate (f : ℚ) : ℚ := (mathTrunc (f * 100) : ℚ) / 100

/-- Spec-side two-decimal truncation, following the spec's words:
`floor(x*100)/100` for `x ≥ 0`, and the symmetric toward-zero truncation
for `x < 0`. -/
def truncate2 (x : ℚ) : ℚ :=
  if 0 ≤ x then (⌊x * 100⌋ : ℚ) / 100 else -((⌊-x * 100⌋ : ℚ) / 100)

theorem mathRound_eq_of_nonneg (q : ℚ) (n : ℤ) (h0 : 0 ≤ q)
    (h1 : (n : ℚ) ≤ q + 1 / 2) (h2 : q + 1 / 2 < (n : ℚ) + 1) : mathRound q = n := by
  unfold mathRound
  rw [if_neg (not_lt.mpr h0)]
  exact Int.floor_eq_iff.mpr ⟨h1, h2⟩

theorem mathRound_eq_of_neg (q : ℚ) (n : ℤ) (h0 : q < 0)
    (h1 : ((-n : ℤ) : ℚ) ≤ -q + 1 / 2) (h2 : -q + 1 / 2 < ((-n : ℤ) : ℚ) + 1) :
    mathRound q = n := by
  unfold mathRound
  rw [if_pos h0, Int.floor_eq_iff.mpr ⟨h1, h2⟩, neg_neg]

theorem mathTrunc_eq_of_nonneg (q : ℚ) (n : ℤ) (h0 : 0 ≤ q)
    (h1 : (n : ℚ) ≤ q) (h2 : q < (n : ℚ) + 1) : mathTrunc q = n := by
  unfold mathTrunc
  rw [if_neg (not_lt.mpr h0)]
  exact Int.floor_eq_iff.mpr ⟨h1, h2⟩

theorem mathTrunc_eq_of_neg (q : ℚ) (n : ℤ) (h0 : q < 0)
    (h1 : (n : ℚ) - 1 < q) (h2 : q ≤ (n : ℚ)) : mathTrunc q = n := by
  unfold mathTrunc
  rw [if_pos h0]
  exact Int.ceil_eq_iff.mpr ⟨h1, h2⟩

theorem mathTrunc_intCast (k : ℤ) : mathTrunc (k : ℚ) = k := by
  unfold mathTrunc
  rcases lt_or_ge (k : ℚ) 0 with h | h
  · rw [if_pos h, Int.ceil_intCast]
  · rw [if_neg (not_lt.mpr h), Int.floor_intCast]

theorem truncate_eq_truncate2 (x : ℚ) : truncate x = truncate2 x := by
  unfold truncate truncate2 mathTrunc
  rcases le_or_lt 0 x with h | h
  · rw [if_pos h, if_neg (not_lt.mpr (mul_nonneg h (by norm_num)))]
  · rw [if_neg (not_le.mpr h), if_pos (mul_neg_of_neg_of_pos h (by norm_num))]
    have hc : ⌈x * 100⌉ = -⌊-x * 100⌋ := by
      rw [show x * 100 = -(-x * 100) by ring]
      exact Int.ceil_neg
    rw [hc]
    push_cast
    ring

/-- Differences of values already truncated to hundredths are exactly
representable in hundredths, so a further `truncate` is the identity. -/
theorem truncate_sub_truncate (x y : ℚ) :
    truncate (truncate x - truncate y) = truncate x - truncate y := by
  unfold truncate
  have h : ((mathTrunc (x * 100) : ℚ) / 100 - (mathTrunc (y * 100) : ℚ) / 100) * 100
      = ((mathTrunc (x * 100) - mathTrunc (y * 100) : ℤ) : ℚ) := by
    push_cast
    ring
  rw [h, mathTrunc_intCast]
  push_cast
  ring

/-- `findMinMax` (power/telemetry.go 349-364): single scan maintaining a
running minimum and maximum, both started at the first element; the empty
list yields `(0, 0)`.  The iokit copy (iokit/battery.go 555-567) omits the
empty-list guard but is only ever invoked on lists with at least two
entries, where the two versions coincide. -/
def findMinMax (a : List ℤ) : ℤ × ℤ :=
  match a with
  | [] => (0, 0)
  | x :: _ =>
    a.foldl (fun mm v => (if v < mm.1 then v else mm.1, if mm.2 < v then v else mm.2)) (x, x)

/-- Spec-side minimum of a nonempty list (0 for the empty list). -/
def listMin : List ℤ → ℤ
  | [] => 0
  | x :: xs => xs.foldl min x

/-- Spec-side maximum of a nonempty list (0 for the empty list). -/
def listMax : List ℤ → ℤ
  | [] => 0
  | x :: xs => xs.foldl max x

theorem minmax_step_fst (m v : ℤ) : (if v < m then v else m) = min m v := by
  rw [min_def]
  split_ifs <;> omega

theorem minmax_step_snd (m v : ℤ) : (if m < v then v else m) = max m v := by
  rw [max_def]
  split_ifs <;> omega

theorem foldl_minmax_pair (xs : List ℤ) (p : ℤ × ℤ) :
    xs.foldl (fun mm v => (min mm.1 v, max mm.2 v)) p
      = (xs.foldl min p.1, xs.foldl max p.2) := by
  induction xs generalizing p with
  | nil => rfl
  | cons y ys ih =>
    simp only [List.foldl_cons]
    exact ih (min p.1 y, max p.2 y)

theorem findMinMax_eq (l : List ℤ) (h : l ≠ []) :
    findMinMax l = (listMin l, listMax l) := by
  cases l with
  | nil => exact absurd rfl h
  | cons x xs =>
    unfold findMinMax listMin listMax
    have hf : (fun (mm : ℤ × ℤ) v =>
          (if v < mm.1 then v else mm.1, if mm.2 < v then v else mm.2))
        = fun (mm : ℤ × ℤ) v => (min mm.1 v, max mm.2 v) := by
      funext mm v
      rw [minmax_step_fst, minmax_step_snd]
    rw [hf]
    simp only [List.foldl_cons]
    rw [show ((min x x, max x x) : ℤ × ℤ) = (x, x) by rw [min_self, max_self]]
    exact foldl_minmax_pair xs (x, x)

theorem foldl_min_le_init (xs : List ℤ) (x : ℤ) : xs.foldl min x ≤ x := by
  induction xs generalizing x with
  | nil => simp
  | cons y ys ih =>
    simp only [List.foldl_cons]
    exact le_trans (ih (min x y)) (min_le_left x y)

theorem foldl_min_le_mem (xs : List ℤ) (x v : ℤ) (hv : v ∈ xs) : xs.foldl min x ≤ v := by
  induction xs generalizing x with
  | nil => cases hv
  | cons y ys ih =>
    simp only [List.foldl_cons]
    rcases List.mem_cons.mp hv with h | h
    · subst h
      exact le_trans (foldl_min_le_init ys (min x v)) (min_le_right x v)
    · exact ih (min x y) h

theorem foldl_min_mem (xs : List ℤ) (x : ℤ) :
    xs.foldl min x = x ∨ xs.foldl min x ∈ xs := by
  induction xs generalizing x with
  | nil => exact Or.inl rfl
  | cons y ys ih =>
    simp only [List.foldl_cons]
    rcases ih (min x y) with h | h
    · rcases min_choice x y with hc | hc
      · exact Or.inl (h.trans hc)
      · exact Or.inr (List.mem_cons.mpr (Or.inl (h.trans hc)))
    · exact Or.inr (List.mem_cons.mpr (Or.inr h))

theorem foldl_max_init_le (xs : List ℤ) (x : ℤ) : x ≤ xs.foldl max x := by
  induction xs generalizing x with
  | nil => simp
  | cons y ys ih =>
    simp only [List.foldl_cons]
    exact le_trans (le_max_left x y) (ih (max x y))

theorem foldl_max_mem_le (xs : List ℤ) (x v : ℤ) (hv : v ∈ xs) : v ≤ xs.foldl max x := by
  induction xs generalizing x with
  | nil => cases hv
  | cons y ys ih =>
    simp only [List.foldl_cons]
    rcases List.mem_cons.mp hv with h | h
    · subst h
      exact le_trans (le_max_right x v) (foldl_max_init_le ys (max x v))
    · exact ih (max x y) h

theorem foldl_max_mem (xs : List ℤ) (x : ℤ) :
    xs.foldl max x = x ∨ xs.foldl max x ∈ xs := by
  induction xs generalizing x with
  | nil => exact Or.inl rfl
  | cons y ys ih =>
    simp only [List.foldl_cons]
    rcases ih (max x y) with h | h
    · rcases max_choice x y with hc | hc
      · exact Or.inl (h.trans hc)
      · exact Or.inr (List.mem_cons.mpr (Or.inl (h.trans hc)))
    · exact Or.inr (List.mem_cons.mpr (Or.inr h))

theorem listMin_mem (l : List ℤ) (h : l ≠ []) : listMin l ∈ l := by
  cases l with
  | nil => exact absurd rfl h
  | cons x xs =>
    show xs.foldl min x ∈ x :: xs
    rcases foldl_min_mem xs x with h1 | h1
    · rw [h1]
      exact List.mem_cons_self x xs
    · exact List.mem_cons_of_mem x h1

theorem listMin_le (l : List ℤ) (v : ℤ) (hv : v ∈ l) : listMin l ≤ v := by
  cases l with
  | nil => cases hv
  | cons x xs =>
    show xs.foldl min x ≤ v
    rcases List.mem_cons.mp hv with h | h
    · subst h
      exact foldl_min_le_init xs v
    · exact foldl_min_le_mem xs x v h

theorem listMax_mem (l : List ℤ) (h : l ≠ []) : listMax l ∈ l := by
  cases l with
  | nil => exact absurd rfl h
  | cons x xs =>
    show xs.foldl max x ∈ x :: xs
    rcases foldl_max_mem xs x with h1 | h1
    · rw [h1]
      exact List.mem_cons_self x xs
    · exact List.mem_cons_of_mem x h1

theorem le_listMax (l : List ℤ) (v : ℤ) (hv : v ∈ l) : v ≤ listMax l := by
  cases l with
  | nil => cases hv
  | cons x xs =>
    show v ≤ xs.foldl max x
    rcases List.mem_cons.mp hv with h | h
    · subst h
      exact foldl_max_init_le xs v
    · exact foldl_max_mem_le xs x v h

/-- The condition-modifier switch inlined in `calculateDerivedMetrics`
(power/telemetry.go 306-322) and in `calculateHealthMetrics`
(iokit/battery.go 530-547), factored into a function of the snapshot's
cell-voltage list.  `conditionModifier` starts at the zero value `0.0` and
is assigned only when more than one cell voltage is present. -/
def conditionModifierOf (cells : List ℤ) : ℚ :=
  if 1 < cells.length then
    let mm := findMinMax cells
    let drift := mm.2 - mm.1
    if drift ≤ 5 then 5 / 2
    else if drift ≤ 15 then 1
    else if drift ≤ 30 then 0
    else if drift ≤ 50 then -2
    else -10
  else 0

/-- Spec-side drift modifier, following the spec's words: with fewer than 2
entries the modifier is 0; otherwise drift = max − min is mapped through
inclusive upper-bound thresholds evaluated in order, first match winning. -/
def driftModifierSpec (cells : List ℤ) : ℚ :=
  if cells.length < 2 then 0
  else
    let drift := listMax cells - listMin cells
    if drift ≤ 5 then 5 / 2
    else if drift ≤ 15 then 1
    else if drift ≤ 30 then 0
    else if drift ≤ 50 then -2
    else -10

/-- The raw property values that the C reader extracts from the
AppleSmartBattery registry entry, one field per `get_*_prop` lookup
(missing or mistyped keys already read as the zero value there).
`cellVoltages` is the `BatteryData.CellVoltage` array exactly as reported,
of arbitrary length, so that the 16-entry cap is part of the model. -/
structure RawRecord where
  isCharging : Bool
  isConnected : Bool
  isFullyCharged : Bool
  cycleCount : ℤ
  designCapacity : ℤ
  maxCapacity : ℤ
  nominalCapacity : ℤ
  currentCapacity : ℤ
  timeToEmpty : ℤ
  timeToFull : ℤ
  temperature : ℤ
  voltage : ℤ
  amperage : ℤ
  serialNumber : String
  deviceName : String
  adapterWatts : ℤ
  adapterVoltage : ℤ
  adapterAmperage : ℤ
  adapterDescription : String
  sourceVoltage : ℤ
  sourceAmperage : ℤ
  cellVoltages : List ℤ

/-- Model of the C helper `get_long_array_prop` (power/telemetry.go
120-145, identical in iokit/battery.go 219-244): the reported array is
copied into a buffer of capacity `max_count`; a count larger than
`max_count` is clamped ("Prevent buffer overflow") and the clamped
`final_count` is reported alongside the copied prefix. -/
def get_long_array_prop (arr : List ℤ) (max_count : ℕ) : List ℤ × ℕ :=
  let count := min arr.length max_count
  (arr.take count, count)

/-- The C intermediary struct `c_battery_info` (identical in both files);
`cell_voltages` holds the copied prefix, `cell_voltage_count` the clamped
count. -/
structure c_battery_info where
  is_charging : Bool
  is_connected : Bool
  is_fully_charged : Bool
  cycle_count : ℤ
  design_capacity : ℤ
  max_capacity : ℤ
  nominal_capacity : ℤ
  current_capacity : ℤ
  time_to_empty : ℤ
  time_to_full : ℤ
  temperature : ℤ
  voltage : ℤ
  amperage : ℤ
  serial_number : String
  device_name : String
  adapter_watts : ℤ
  adapter_voltage : ℤ
  adapter_amperage : ℤ
  adapter_description : String
  source_voltage : ℤ
  source_amperage : ℤ
  cell_voltages : List ℤ
  cell_voltage_count : ℕ

/-- The success path of the C reader `get_all_battery_info` (identical in
both files): populate `c_battery_info` from the property record, capping
the cell-voltage array at 16 entries via `get_long_array_prop`. -/
def get_all_battery_info (raw : RawRecord) : c_battery_info :=
  { is_charging := raw.isCharging
    is_connected := raw.isConnected
    is_fully_charged := raw.isFullyCharged
    cycle_count := raw.cycleCount
    design_capacity := raw.designCapacity
    max_capacity := raw.maxCapacity
    nominal_capacity := raw.nominalCapacity
    current_capacity := raw.currentCapacity
    time_to_empty := raw.timeToEmpty
    time_to_full := raw.timeToFull
    temperature := raw.temperature
    voltage := raw.voltage
    amperage := raw.amperage
    serial_number := raw.serialNumber
    device_name := raw.deviceName
    adapter_watts := raw.adapterWatts
    adapter_voltage := raw.adapterVoltage
    adapter_amperage := raw.adapterAmperage
    adapter_description := raw.adapterDescription
    source_voltage := raw.sourceVoltage
    source_amperage := raw.sourceAmperage
    cell_voltages := (get_long_array_prop raw.cellVoltages 16).1
    cell_voltage_count := (get_long_array_prop raw.cellVoltages 16).2 }

namespace power

/-- `State` (power/telemetry.go 376-380). -/
structure State where
  IsCharging : Bool
  IsConnected : Bool
  FullyCharged : Bool

/-- `Battery` (power/telemetry.go 384-403). -/
structure Battery where
  SerialNumber : String
  DeviceName : String
  CycleCount : ℤ
  DesignCapacity : ℤ
  MaxCapacity : ℤ
  NominalCapacity : ℤ
  CurrentCapacity : ℤ
  TimeToEmpty : ℤ
  TimeToFull : ℤ
  Temperature : ℚ
  Voltage : ℚ
  Amperage : ℚ
  IndividualCellVoltages : List ℤ

/-- `Adapter` (power/telemetry.go 406-425). -/
structure Adapter where
  Description : String
  MaxWatts : ℤ
  MaxVoltage : ℚ
  MaxAmperage : ℚ
  InputVoltage : ℚ
  InputAmperage : ℚ

/-- `Calculations` (power/telemetry.go 428-438). -/
structure Calculations where
  HealthByMaxCapacity : ℤ
  HealthByNominalCapacity : ℤ
  ConditionAdjustedHealth : ℤ
  ACPower : ℚ
  BatteryPower : ℚ
  SystemPower : ℚ

/-- `BatteryInfo` (power/telemetry.go 368-373). -/
structure BatteryInfo where
  State : State
  Battery : Battery
  Adapter : Adapter
  Calculations : Calculations

/-- The Go zero value of `Calculations`: `GetBatteryInfo` constructs the
composite literal without setting `Calculations`, leaving every numeric
field zero. -/
def zeroCalculations : Calculations :=
  { HealthByMaxCapacity := 0
    HealthByNominalCapacity := 0
    ConditionAdjustedHealth := 0
    ACPower := 0
    BatteryPower := 0
    SystemPower := 0 }

/-- The struct translation inside `GetBatteryInfo` (power/telemetry.go
244-286): unit conversions (hundredths of °C, mV, mA) and the copy of the
first `cell_voltage_count` cell voltages when that count is positive (a
zero count leaves the Go nil slice, modelled as `[]`). -/
def buildInfo (raw : RawRecord) : BatteryInfo :=
  let c_info := get_all_battery_info raw
  { State :=
      { IsCharging := c_info.is_charging
        IsConnected := c_info.is_connected
        FullyCharged := c_info.is_fully_charged }
    Battery :=
      { SerialNumber := c_info.serial_number
        DeviceName := c_info.device_name
        CycleCount := c_info.cycle_count
        DesignCapacity := c_info.design_capacity
        MaxCapacity := c_info.max_capacity
        NominalCapacity := c_info.nominal_capacity
        CurrentCapacity := c_info.current_capacity
        TimeToEmpty := c_info.time_to_empty
        TimeToFull := c_info.time_to_full
        Temperature := (c_info.temperature : ℚ) / 100
        Voltage := (c_info.voltage : ℚ) / 1000
        Amperage := (c_info.amperage : ℚ) / 1000
        IndividualCellVoltages :=
          if 0 < c_info.cell_voltage_count then c_info.cell_voltages else [] }
    Adapter :=
      { Description := c_info.adapter_description
        MaxWatts := c_info.adapter_watts
        MaxVoltage := (c_info.adapter_voltage : ℚ) / 1000
        MaxAmperage := (c_info.adapter_amperage : ℚ) / 1000
        InputVoltage := (c_info.source_voltage : ℚ) / 1000
        InputAmperage := (c_info.source_amperage : ℚ) / 1000 }
    Calculations := zeroCalculations }

/-- `calculateDerivedMetrics` (power/telemetry.go 295-346): health
percentages guarded by `DesignCapacity > 0`, then the always-computed
power-flow values with two-decimal truncation. -/
def calculateDerivedMetrics (info : BatteryInfo) : BatteryInfo :=
  let calcHealth : Calculations :=
    if 0 < info.Battery.DesignCapacity then
      let designCapF : ℚ := (info.Battery.DesignCapacity : ℚ)
      let healthByMax : ℚ := ((info.Battery.MaxCapacity : ℚ) / designCapF) * 100
      let healthByNominal : ℚ := ((info.Battery.NominalCapacity : ℚ) / designCapF) * 100
      let conditionModifier : ℚ := conditionModifierOf info.Battery.IndividualCellVoltages
      { info.Calculations with
        HealthByMaxCapacity := mathRound healthByMax
        HealthByNominalCapacity := mathRound healthByNominal
        ConditionAdjustedHealth := mathRound (healthByNominal + conditionModifier) }
    else info.Calculations
  let acPower : ℚ := info.Adapter.InputVoltage * info.Adapter.InputAmperage
  let calc1 : Calculations := { calcHealth with ACPower := truncate acPower }
  let batteryPower : ℚ := info.Battery.Voltage * info.Battery.Amperage
  let calc2 : Calculations := { calc1 with BatteryPower := truncate batteryPower }
  let systemPower : ℚ := calc2.ACPower - calc2.BatteryPower
  let calc3 : Calculations := { calc2 with SystemPower := truncate systemPower }
  { info with Calculations := calc3 }

/-- The snapshot produced on the success path of `GetBatteryInfo`. -/
def snapshotOf (raw : RawRecord) : BatteryInfo :=
  calculateDerivedMetrics (buildInfo raw)

/-- `GetBatteryInfo` (power/telemetry.go 233-291): a nonzero return code
from the C reader is surfaced as the error (carrying that code) with a nil
snapshot; on success the struct is translated and derived metrics are
computed. -/
def GetBatteryInfo (ret : ℤ) (raw : RawRecord) : Except ℤ BatteryInfo :=
  if ret ≠ 0 then Except.error ret
  else Except.ok (snapshotOf raw)

end power

namespace iokit

/-- `Health` (iokit/battery.go 428-431). -/
structure Health where
  CycleCount : ℤ

/-- `Capacity` (iokit/battery.go 434-444). -/
structure Capacity where
  DesignCapacity : ℤ
  MaxCapacity : ℤ
  NominalCapacity : ℤ

/-- `Charge` (iokit/battery.go 447-454). -/
structure Charge where
  CurrentCapacity : ℤ
  TimeToEmpty : ℤ
  TimeToFull : ℤ

/-- `Battery` (iokit/battery.go 457-462): temperature plus the cell
voltages. -/
structure Battery where
  Temperature : ℚ
  IndividualCellVoltages : List ℤ

/-- `Power` (iokit/battery.go 465-471). -/
structure Power where
  Voltage : ℚ
  Amperage : ℚ

/-- `Hardware` (iokit/battery.go 474-479). -/
structure Hardware where
  SerialNumber : String
  DeviceName : String

/-- `Adapter` (iokit/battery.go 482-491). -/
structure Adapter where
  Watts : ℤ
  Voltage : ℚ
  Amperage : ℚ
  Description : String

/-- `PowerSourceInput` (iokit/battery.go 495-500). -/
structure PowerSourceInput where
  Voltage : ℚ
  Amperage : ℚ

/-- `Calculations` (iokit/battery.go 504-511): only the three health
percentages in this revision. -/
structure Calculations where
  HealthByMaxCapacity : ℤ
  HealthByNominalCapacity : ℤ
  ConditionAdjustedHealth : ℤ

/-- `BatteryInfo` (iokit/battery.go 406-425). -/
structure BatteryInfo where
  IsCharging : Bool
  IsConnected : Bool
  FullyCharged : Bool
  Health : Health
  Capacity : Capacity
  Charge : Charge
  Battery : Battery
  Power : Power
  Hardware : Hardware
  Adapter : Adapter
  PowerSourceInput : PowerSourceInput
  Calculations : Calculations

/-- The Go zero value of this revision's `Calculations`. -/
def zeroCalculations : Calculations :=
  { HealthByMaxCapacity := 0
    HealthByNominalCapacity := 0
    ConditionAdjustedHealth := 0 }

/-- The struct translation inside `GetBatteryInfo` (iokit/battery.go
343-397), with the same unit conversions and cell-voltage copy as the
power revision. -/
def buildInfo (raw : RawRecord) : BatteryInfo :=
  let c_info := get_all_battery_info raw
  { IsCharging := c_info.is_charging
    IsConnected := c_info.is_connected
    FullyCharged := c_info.is_fully_charged
    Health := { CycleCount := c_info.cycle_count }
    Capacity :=
      { DesignCapacity := c_info.design_capacity
        MaxCapacity := c_info.max_capacity
        NominalCapacity := c_info.nominal_capacity }
    Charge :=
      { CurrentCapacity := c_info.current_capacity
        TimeToEmpty := c_info.time_to_empty
        TimeToFull := c_info.time_to_full }
    Battery :=
      { Temperature := (c_info.temperature : ℚ) / 100
        IndividualCellVoltages :=
          if 0 < c_info.cell_voltage_count then c_info.cell_voltages else [] }
    Power :=
      { Voltage := (c_info.voltage : ℚ) / 1000
        Amperage := (c_info.amperage : ℚ) / 1000 }
    Hardware :=
      { SerialNumber := c_info.serial_number
        DeviceName := c_info.device_name }
    Adapter :=
      { Watts := c_info.adapter_watts
        Voltage := (c_info.adapter_voltage : ℚ) / 1000
        Amperage := (c_info.adapter_amperage : ℚ) / 1000
        Description := c_info.adapter_description }
    PowerSourceInput :=
      { Voltage := (c_info.source_voltage : ℚ) / 1000
        Amperage := (c_info.source_amperage : ℚ) / 1000 }
    Calculations := zeroCalculations }

/-- `calculateHealthMetrics` (iokit/battery.go 513-552): this revision
returns early only when `DesignCapacity == 0` (its comment: avoid division
by zero), and computes the three health percentages otherwise, applying
the condition modifier to the unrounded nominal ratio. -/
def calculateHealthMetrics (info : BatteryInfo) : BatteryInfo :=
  if info.Capacity.DesignCapacity = 0 then info
  else
    let designCapF : ℚ := (info.Capacity.DesignCapacity : ℚ)
    let healthByMax : ℚ := ((info.Capacity.MaxCapacity : ℚ) / designCapF) * 100
    let healthByNominal : ℚ := ((info.Capacity.NominalCapacity : ℚ) / designCapF) * 100
    let conditionModifier : ℚ := conditionModifierOf info.Battery.IndividualCellVoltages
    let adjustedHealth : ℚ := healthByNominal + conditionModifier
    { info with
      Calculations :=
        { HealthByMaxCapacity := mathRound healthByMax
          HealthByNominalCapacity := mathRound healthByNominal
          ConditionAdjustedHealth := mathRound adjustedHealth } }

/-- The snapshot produced on the success path of this revision's
`GetBatteryInfo`. -/
def snapshotOf (raw : RawRecord) : BatteryInfo :=
  calculateHealthMetrics (buildInfo raw)

/-- `GetBatteryInfo` (iokit/battery.go 332-402). -/
def GetBatteryInfo (ret : ℤ) (raw : RawRecord) : Except ℤ BatteryInfo :=
  if ret ≠ 0 then Except.error ret
  else Except.ok (snapshotOf raw)

end iokit

/-- An all-zero raw record (every property missing from the registry
record reads as the zero value). -/
def rawZero : RawRecord :=
  { isCharging := false
    isConnected := false
    isFullyCharged := false
    cycleCount := 0
    designCapacity := 0
    maxCapacity := 0
    nominalCapacity := 0
    currentCapacity := 0
    timeToEmpty := 0
    timeToFull := 0
    temperature := 0
    voltage := 0
    amperage := 0
    serialNumber := ""
    deviceName := ""
    adapterWatts := 0
    adapterVoltage := 0
    adapterAmperage := 0
    adapterDescription := ""
    sourceVoltage := 0
    sourceAmperage := 0
    cellVoltages := [] }

/-- A raw record with a negative design capacity. -/
def rawNegDesign : RawRecord :=
  { rawZero with designCapacity := -1, maxCapacity := 1 }

/-- The spec's worked health example: design 8579 mAh, raw max 7701 mAh,
nominal 7945 mAh, three well-balanced cells. -/
def rawExample : RawRecord :=
  { rawZero with
    designCapacity := 8579
    maxCapacity := 7701
    nominalCapacity := 7945
    cellVoltages := [3783, 3785, 3784] }

/-- A raw record whose cell-voltage array reports 20 entries. -/
def rawTwenty : RawRecord :=
  { rawZero with
    cellVoltages := [1, 2, 3, 4, 5, 6, 7, 8, 9, 10, 11, 12, 13, 14, 15, 16, 17, 18, 19, 20] }

/-- A raw record with live electrical readings: battery 11353 mV at
−1593 mA, adapter input 19517 mV at 3213 mA. -/
def rawLive : RawRecord :=
  { rawZero with
    voltage := 11353
    amperage := -1593
    sourceVoltage := 19517
    sourceAmperage := 3213 }

theorem take_min_length (l : List ℤ) (n : ℕ) : l.take (min l.length n) = l.take n := by
  rcases le_total l.length n with h | h
  · rw [min_eq_left h, List.take_length, List.take_of_length_le h]
  · rw [min_eq_right h]

theorem get_long_array_prop_fst (l : List ℤ) :
    (get_long_array_prop l 16).1 = l.take 16 :=
  take_min_length l 16

theorem get_long_array_prop_snd (l : List ℤ) :
    (get_long_array_prop l 16).2 = min l.length 16 := rfl

namespace power

theorem buildInfo_cells (raw : RawRecord) :
    (buildInfo raw).Battery.IndividualCellVoltages = raw.cellVoltages.take 16 := by
  have h0 : (buildInfo raw).Battery.IndividualCellVoltages
      = if 0 < (get_long_array_prop raw.cellVoltages 16).2
          then (get_long_array_prop raw.cellVoltages 16).1 else [] := rfl
  rw [h0, get_long_array_prop_fst, get_long_array_prop_snd]
  by_cases h : 0 < min raw.cellVoltages.length 16
  · rw [if_pos h]
  · rw [if_neg h]
    have h1 : raw.cellVoltages = [] := by
      have h2 : raw.cellVoltages.length = 0 := by omega
      exact List.length_eq_zero.mp h2
    rw [h1]
    rfl

theorem calcDM_State (info : BatteryInfo) :
    (calculateDerivedMetrics info).State = info.State := rfl

theorem calcDM_Battery (info : BatteryInfo) :
    (calculateDerivedMetrics info).Battery = info.Battery := rfl

theorem calcDM_Adapter (info : BatteryInfo) :
    (calculateDerivedMetrics info).Adapter = info.Adapter := rfl

theorem calcDM_ACPower (info : BatteryInfo) :
    (calculateDerivedMetrics info).Calculations.ACPower
      = truncate (info.Adapter.InputVoltage * info.Adapter.InputAmperage) := rfl

theorem calcDM_BatteryPower (info : BatteryInfo) :
    (calculateDerivedMetrics info).Calculations.BatteryPower
      = truncate (info.Battery.Voltage * info.Battery.Amperage) := rfl

theorem calcDM_SystemPower (info : BatteryInfo) :
    (calculateDerivedMetrics info).Calculations.SystemPower
      = truncate ((calculateDerivedMetrics info).Calculations.ACPower
          - (calculateDerivedMetrics info).Calculations.BatteryPower) := rfl

theorem calcDM_health_pos (info : BatteryInfo) (h : 0 < info.Battery.DesignCapacity) :
    (calculateDerivedMetrics info).Calculations.HealthByMaxCapacity
        = mathRound ((info.Battery.MaxCapacity : ℚ) / (info.Battery.DesignCapacity : ℚ) * 100)
    ∧ (calculateDerivedMetrics info).Calculations.HealthByNominalCapacity
        = mathRound ((info.Battery.NominalCapacity : ℚ) / (info.Battery.DesignCapacity : ℚ) * 100)
    ∧ (calculateDerivedMetrics info).Calculations.ConditionAdjustedHealth
        = mathRound ((info.Battery.NominalCapacity : ℚ) / (info.Battery.DesignCapacity : ℚ) * 100
            + conditionModifierOf info.Battery.IndividualCellVoltages) := by
  simp only [calculateDerivedMetrics]
  rw [if_pos h]
  exact ⟨rfl, rfl, rfl⟩

theorem calcDM_health_nonpos (info : BatteryInfo) (h : ¬ 0 < info.Battery.DesignCapacity) :
    (calculateDerivedMetrics info).Calculations.HealthByMaxCapacity
        = info.Calculations.HealthByMaxCapacity
    ∧ (calculateDerivedMetrics info).Calculations.HealthByNominalCapacity
        = info.Calculations.HealthByNominalCapacity
    ∧ (calculateDerivedMetrics info).Calculations.ConditionAdjustedHealth
        = info.Calculations.ConditionAdjustedHealth := by
  simp only [calculateDerivedMetrics]
  rw [if_neg h]
  exact ⟨rfl, rfl, rfl⟩

end power

namespace iokit

theorem buildInfo_cellVoltages (raw : RawRecord) :
    (buildInfo raw).Battery.IndividualCellVoltages = raw.cellVoltages.take 16 := by
  have h0 : (buildInfo raw).Battery.IndividualCellVoltages
      = if 0 < (get_long_array_prop raw.cellVoltages 16).2
          then (get_long_array_prop raw.cellVoltages 16).1 else [] := rfl
  rw [h0, get_long_array_prop_fst, get_long_array_prop_snd]
  by_cases h : 0 < min raw.cellVoltages.length 16
  · rw [if_pos h]
  · rw [if_neg h]
    have h1 : raw.cellVoltages = [] := by
      have h2 : raw.cellVoltages.length = 0 := by omega
      exact List.length_eq_zero.mp h2
    rw [h1]
    rfl

theorem calcHM_frame (info : BatteryInfo) :
    (calculateHealthMetrics info).IsCharging = info.IsCharging
    ∧ (calculateHealthMetrics info).IsConnected = info.IsConnected
    ∧ (calculateHealthMetrics info).FullyCharged = info.FullyCharged
    ∧ (calculateHealthMetrics info).Health = info.Health
    ∧ (calculateHealthMetrics info).Capacity = info.Capacity
    ∧ (calculateHealthMetrics info).Charge = info.Charge
    ∧ (calculateHealthMetrics info).Battery = info.Battery
    ∧ (calculateHealthMetrics info).Power = info.Power
    ∧ (calculateHealthMetrics info).Hardware = info.Hardware
    ∧ (calculateHealthMetrics info).Adapter = info.Adapter
    ∧ (calculateHealthMetrics info).PowerSourceInput = info.PowerSourceInput := by
  unfold calculateHealthMetrics
  split
  · exact ⟨rfl, rfl, rfl, rfl, rfl, rfl, rfl, rfl, rfl, rfl, rfl⟩
  · exact ⟨rfl, rfl, rfl, rfl, rfl, rfl, rfl, rfl, rfl, rfl, rfl⟩

theorem calcHM_zero (info : BatteryInfo) (h : info.Capacity.DesignCapacity = 0) :
    calculateHealthMetrics info = info := by
  unfold calculateHealthMetrics
  rw [if_pos h]

theorem calcHM_ne (info : BatteryInfo) (h : ¬ info.Capacity.DesignCapacity = 0) :
    (calculateHealthMetrics info).Calculations.HealthByMaxCapacity
        = mathRound ((info.Capacity.MaxCapacity : ℚ) / (info.Capacity.DesignCapacity : ℚ) * 100)
    ∧ (calculateHealthMetrics info).Calculations.HealthByNominalCapacity
        = mathRound ((info.Capacity.NominalCapacity : ℚ) / (info.Capacity.DesignCapacity : ℚ) * 100)
    ∧ (calculateHealthMetrics info).Calculations.ConditionAdjustedHealth
        = mathRound ((info.Capacity.NominalCapacity : ℚ) / (info.Capacity.DesignCapacity : ℚ) * 100
            + conditionModifierOf info.Battery.IndividualCellVoltages) := by
  simp only [calculateHealthMetrics]
  rw [if_neg h]
  exact ⟨rfl, rfl, rfl⟩

end iokit

theorem conditionModifierOf_eq_spec (cells : List ℤ) :
    conditionModifierOf cells = driftModifierSpec cells := by
  unfold conditionModifierOf driftModifierSpec
  rcases lt_or_ge 1 cells.length with h | h
  · have hne : cells ≠ [] := by
      cases cells with
      | nil => simp at h
      | cons a l => simp
    rw [if_pos h, if_neg (show ¬ cells.length < 2 by omega), findMinMax_eq cells hne]
  · rw [if_neg (show ¬ 1 < cells.length by omega),
      if_pos (show cells.length < 2 by omega)]

theorem truncate2_eq_of_nonneg (x : ℚ) (n : ℤ) (h0 : 0 ≤ x)
    (h1 : (n : ℚ) ≤ x * 100) (h2 : x * 100 < (n : ℚ) + 1) :
    truncate2 x = (n : ℚ) / 100 := by
  unfold truncate2
  rw [if_pos h0, Int.floor_eq_iff.mpr ⟨h1, h2⟩]

theorem truncate2_eq_of_neg (x : ℚ) (n : ℤ) (h0 : ¬ 0 ≤ x)
    (h1 : (n : ℚ) ≤ -x * 100) (h2 : -x * 100 < (n : ℚ) + 1) :
    truncate2 x = -((n : ℚ) / 100) := by
  unfold truncate2
  rw [if_neg h0, Int.floor_eq_iff.mpr ⟨h1, h2⟩]

namespace power

theorem snap_cells (raw : RawRecord) :
    (snapshotOf raw).Battery.IndividualCellVoltages = raw.cellVoltages.take 16 :=
  buildInfo_cells raw

theorem snap_ACPower (raw : RawRecord) :
    (snapshotOf raw).Calculations.ACPower
      = truncate ((snapshotOf raw).Adapter.InputVoltage
          * (snapshotOf raw).Adapter.InputAmperage) := rfl

theorem snap_BatteryPower (raw : RawRecord) :
    (snapshotOf raw).Calculations.BatteryPower
      = truncate ((snapshotOf raw).Battery.Voltage
          * (snapshotOf raw).Battery.Amperage) := rfl

theorem snap_SystemPower (raw : RawRecord) :
    (snapshotOf raw).Calculations.SystemPower
      = truncate ((snapshotOf raw).Calculations.ACPower
          - (snapshotOf raw).Calculations.BatteryPower) := rfl

theorem snap_InputVoltage (raw : RawRecord) :
    (snapshotOf raw).Adapter.InputVoltage = (raw.sourceVoltage : ℚ) / 1000 := rfl

theorem snap_InputAmperage (raw : RawRecord) :
    (snapshotOf raw).Adapter.InputAmperage = (raw.sourceAmperage : ℚ) / 1000 := rfl

theorem snap_Voltage (raw : RawRecord) :
    (snapshotOf raw).Battery.Voltage = (raw.voltage : ℚ) / 1000 := rfl

theorem snap_Amperage (raw : RawRecord) :
    (snapshotOf raw).Battery.Amperage = (raw.amperage : ℚ) / 1000 := rfl

theorem snap_health_pos (raw : RawRecord) (h : 0 < raw.designCapacity) :
    (snapshotOf raw).Calculations.HealthByMaxCapacity
        = mathRound ((raw.maxCapacity : ℚ) / (raw.designCapacity : ℚ) * 100)
    ∧ (snapshotOf raw).Calculations.HealthByNominalCapacity
        = mathRound ((raw.nominalCapacity : ℚ) / (raw.designCapacity : ℚ) * 100)
    ∧ (snapshotOf raw).Calculations.ConditionAdjustedHealth
        = mathRound ((raw.nominalCapacity : ℚ) / (raw.designCapacity : ℚ) * 100
            + conditionModifierOf (raw.cellVoltages.take 16)) := by
  have h2 := calcDM_health_pos (buildInfo raw) h
  rw [buildInfo_cells raw] at h2
  exact h2

theorem snap_health_nonpos (raw : RawRecord) (h : ¬ 0 < raw.designCapacity) :
    (snapshotOf raw).Calculations.HealthByMaxCapacity = 0
    ∧ (snapshotOf raw).Calculations.HealthByNominalCapacity = 0
    ∧ (snapshotOf raw).Calculations.ConditionAdjustedHealth = 0 := by
  have h2 := calcDM_health_nonpos (buildInfo raw) h
  exact ⟨h2.1.trans rfl, h2.2.1.trans rfl, h2.2.2.trans rfl⟩

end power

namespace iokit

theorem snap_cellVoltages (raw : RawRecord) :
    (snapshotOf raw).Battery.IndividualCellVoltages = raw.cellVoltages.take 16 := by
  have h := (calcHM_frame (buildInfo raw)).2.2.2.2.2.2.1
  show (calculateHealthMetrics (buildInfo raw)).Battery.IndividualCellVoltages = _
  rw [h, buildInfo_cellVoltages]

theorem snap_health_ne (raw : RawRecord) (h : raw.designCapacity ≠ 0) :
    (snapshotOf raw).Calculations.HealthByMaxCapacity
        = mathRound ((raw.maxCapacity : ℚ) / (raw.designCapacity : ℚ) * 100)
    ∧ (snapshotOf raw).Calculations.HealthByNominalCapacity
        = mathRound ((raw.nominalCapacity : ℚ) / (raw.designCapacity : ℚ) * 100)
    ∧ (snapshotOf raw).Calculations.ConditionAdjustedHealth
        = mathRound ((raw.nominalCapacity : ℚ) / (raw.designCapacity : ℚ) * 100
            + conditionModifierOf (raw.cellVoltages.take 16)) := by
  have h2 := calcHM_ne (buildInfo raw) h
  rw [buildInfo_cellVoltages raw] at h2
  exact h2

theorem snap_zero (raw : RawRecord) (h : raw.designCapacity = 0) :
    snapshotOf raw = buildInfo raw :=
  calcHM_zero (buildInfo raw) h

end iokit

/-- Claim C1 (as frozen) is falsified by the iokit revision: with
designCapacity = −1 (≤ 0) and maxCapacity = 1, `calculateHealthMetrics`
only skips on designCapacity == 0, so the returned snapshot carries
healthByMaxCapacity = −100, not 0. -/
theorem C1_counterexample :
    rawNegDesign.designCapacity ≤ 0
    ∧ (iokit.snapshotOf rawNegDesign).Calculations.HealthByMaxCapacity = -100
    ∧ (iokit.snapshotOf rawNegDesign).Calculations.HealthByMaxCapacity ≠ 0 := by
  have h1 := (iokit.snap_health_ne rawNegDesign (by decide)).1
  have hm : (rawNegDesign.maxCapacity : ℚ) = 1 := by norm_num [rawNegDesign, rawZero]
  have hd : (rawNegDesign.designCapacity : ℚ) = -1 := by norm_num [rawNegDesign, rawZero]
  rw [hm, hd] at h1
  have h2 : mathRound ((1 : ℚ) / (-1 : ℚ) * 100) = -100 := by
    apply mathRound_eq_of_neg <;> norm_num
  have hval := h1.trans h2
  exact ⟨by decide, hval, by rw [hval]; decide⟩

/-- Claim C1 (amended): when the power revision's derivation sees
designCapacity ≤ 0 it skips the health computation entirely, leaving
healthByMaxCapacity, healthByNominalCapacity and conditionAdjustedHealth
at 0 in the returned snapshot; the iokit revision skips only when
designCapacity = 0 (its guard is an equality test).  In this exact
rational model every output is a finite rational, and the skip is what
prevents any division by a zero designCapacity. -/
theorem C1_health_skip : ∀ raw : RawRecord,
    (raw.designCapacity ≤ 0 →
      (power.snapshotOf raw).Calculations.HealthByMaxCapacity = 0
      ∧ (power.snapshotOf raw).Calculations.HealthByNominalCapacity = 0
      ∧ (power.snapshotOf raw).Calculations.ConditionAdjustedHealth = 0)
    ∧ (raw.designCapacity = 0 →
      (iokit.snapshotOf raw).Calculations.HealthByMaxCapacity = 0
      ∧ (iokit.snapshotOf raw).Calculations.HealthByNominalCapacity = 0
      ∧ (iokit.snapshotOf raw).Calculations.ConditionAdjustedHealth = 0) := by
  intro raw
  constructor
  · intro h
    exact power.snap_health_nonpos raw (by omega)
  · intro h
    have hs := iokit.snap_zero raw h
    exact ⟨by rw [hs]; exact rfl, by rw [hs]; exact rfl, by rw [hs]; exact rfl⟩

/-- Witness for C1_health_skip: the power part at designCapacity = −1,
the iokit part at designCapacity = 0. -/
theorem C1_health_skip_witness :
    (rawNegDesign.designCapacity ≤ 0
      ∧ ((power.snapshotOf rawNegDesign).Calculations.HealthByMaxCapacity = 0
        ∧ (power.snapshotOf rawNegDesign).Calculations.HealthByNominalCapacity = 0
        ∧ (power.snapshotOf rawNegDesign).Calculations.ConditionAdjustedHealth = 0))
    ∧ (rawZero.designCapacity = 0
      ∧ ((iokit.snapshotOf rawZero).Calculations.HealthByMaxCapacity = 0
        ∧ (iokit.snapshotOf rawZero).Calculations.HealthByNominalCapacity = 0
        ∧ (iokit.snapshotOf rawZero).Calculations.ConditionAdjustedHealth = 0)) :=
  ⟨⟨by decide, (C1_health_skip rawNegDesign).1 (by decide)⟩,
   ⟨by decide, (C1_health_skip rawZero).2 (by decide)⟩⟩

/-- Claim C2: with designCapacity > 0, conditionAdjustedHealth is the
single rounding of the unrounded nominal ratio plus the drift modifier,
in both revisions; rounding first and then adding the modifier would give
a different value (95 vs 96 on the spec's own example), so no double
rounding happens. -/
theorem C2_single_rounding : ∀ raw : RawRecord, 0 < raw.designCapacity →
    ((power.snapshotOf raw).Calculations.ConditionAdjustedHealth
        = mathRound ((raw.nominalCapacity : ℚ) / (raw.designCapacity : ℚ) * 100
            + conditionModifierOf ((power.snapshotOf raw).Battery.IndividualCellVoltages)))
    ∧ ((iokit.snapshotOf raw).Calculations.ConditionAdjustedHealth
        = mathRound ((raw.nominalCapacity : ℚ) / (raw.designCapacity : ℚ) * 100
            + conditionModifierOf ((iokit.snapshotOf raw).Battery.IndividualCellVoltages)))
    ∧ mathRound ((7945 : ℚ) / 8579 * 100 + 5 / 2) = 95
    ∧ mathRound (((mathRound ((7945 : ℚ) / 8579 * 100)) : ℚ) + 5 / 2) = 96 := by
  intro raw h
  refine ⟨?_, ?_, ?_, ?_⟩
  · rw [power.snap_cells raw]
    exact (power.snap_health_pos raw h).2.2
  · rw [iokit.snap_cellVoltages raw]
    exact (iokit.snap_health_ne raw (by omega)).2.2
  · apply mathRound_eq_of_nonneg <;> norm_num
  · have hin : mathRound ((7945 : ℚ) / 8579 * 100) = 93 := by
      apply mathRound_eq_of_nonneg <;> norm_num
    rw [hin]
    apply mathRound_eq_of_nonneg <;> norm_num

/-- Witness for C2_single_rounding at the spec's example record. -/
theorem C2_single_rounding_witness :
    0 < rawExample.designCapacity
    ∧ ((power.snapshotOf rawExample).Calculations.ConditionAdjustedHealth
        = mathRound ((rawExample.nominalCapacity : ℚ) / (rawExample.designCapacity : ℚ) * 100
            + conditionModifierOf
                ((power.snapshotOf rawExample).Battery.IndividualCellVoltages))) :=
  ⟨by decide, (C2_single_rounding rawExample (by decide)).1⟩

/-- Claim C3: with designCapacity > 0 the modifier applied inside
conditionAdjustedHealth is exactly the spec's threshold table on
drift = max − min of the snapshot's cell voltages (first match wins,
inclusive upper bounds, 0 when fewer than 2 entries); `listMin`/`listMax`
really are the least and greatest entries, and the table value on the
spec's example list [3783, 3785, 3784] (drift 2) is +2.5. -/
theorem C3_drift_modifier : ∀ raw : RawRecord, 0 < raw.designCapacity →
    ((power.snapshotOf raw).Calculations.ConditionAdjustedHealth
        = mathRound ((raw.nominalCapacity : ℚ) / (raw.designCapacity : ℚ) * 100
            + driftModifierSpec ((power.snapshotOf raw).Battery.IndividualCellVoltages)))
    ∧ (∀ cells : List ℤ, conditionModifierOf cells = driftModifierSpec cells)
    ∧ (∀ cells : List ℤ, cells ≠ [] →
        listMin cells ∈ cells ∧ listMax cells ∈ cells
          ∧ ∀ v ∈ cells, listMin cells ≤ v ∧ v ≤ listMax cells)
    ∧ driftModifierSpec [3783, 3785, 3784] = 5 / 2 := by
  intro raw h
  refine ⟨?_, conditionModifierOf_eq_spec, ?_, ?_⟩
  · rw [power.snap_cells raw, ← conditionModifierOf_eq_spec]
    exact (power.snap_health_pos raw h).2.2
  · intro cells hne
    exact ⟨listMin_mem cells hne, listMax_mem cells hne,
      fun v hv => ⟨listMin_le cells v hv, le_listMax cells v hv⟩⟩
  · rfl

/-- Witness for C3_drift_modifier at the spec's example record. -/
theorem C3_drift_modifier_witness :
    0 < rawExample.designCapacity
    ∧ ((power.snapshotOf rawExample).Calculations.ConditionAdjustedHealth
        = mathRound ((rawExample.nominalCapacity : ℚ) / (rawExample.designCapacity : ℚ) * 100
            + driftModifierSpec
                ((power.snapshotOf rawExample).Battery.IndividualCellVoltages))) :=
  ⟨by decide, (C3_drift_modifier rawExample (by decide)).1⟩

/-- Claim C4: with designCapacity > 0, healthByMaxCapacity and
healthByNominalCapacity are the half-away-from-zero roundings of the two
capacity ratios, and on the spec's example 7701/8579 rounds to 90 and
7945/8579 rounds to 93. -/
theorem C4_health_formula : ∀ raw : RawRecord, 0 < raw.designCapacity →
    ((power.snapshotOf raw).Calculations.HealthByMaxCapacity
        = mathRound ((raw.maxCapacity : ℚ) / (raw.designCapacity : ℚ) * 100))
    ∧ ((power.snapshotOf raw).Calculations.HealthByNominalCapacity
        = mathRound ((raw.nominalCapacity : ℚ) / (raw.designCapacity : ℚ) * 100))
    ∧ mathRound ((7701 : ℚ) / 8579 * 100) = 90
    ∧ mathRound ((7945 : ℚ) / 8579 * 100) = 93 := by
  intro raw h
  have h1 := power.snap_health_pos raw h
  exact ⟨h1.1, h1.2.1,
    by apply mathRound_eq_of_nonneg <;> norm_num,
    by apply mathRound_eq_of_nonneg <;> norm_num⟩

/-- Witness for C4_health_formula: the example record yields 90 and 93. -/
theorem C4_health_formula_witness :
    0 < rawExample.designCapacity
    ∧ (power.snapshotOf rawExample).Calculations.HealthByMaxCapacity = 90
    ∧ (power.snapshotOf rawExample).Calculations.HealthByNominalCapacity = 93 := by
  have h := C4_health_formula rawExample (by decide)
  have hmax : (rawExample.maxCapacity : ℚ) = 7701 := by norm_num [rawExample, rawZero]
  have hnom : (rawExample.nominalCapacity : ℚ) = 7945 := by norm_num [rawExample, rawZero]
  have hdes : (rawExample.designCapacity : ℚ) = 8579 := by norm_num [rawExample, rawZero]
  refine ⟨by decide, ?_, ?_⟩
  · rw [h.1, hmax, hdes]
    exact h.2.2.1
  · rw [h.2.1, hnom, hdes]
    exact h.2.2.2

/-- Claim C5's worked example is arithmetically wrong: 19.517 × 3.213 is
62.708121, not 62.688321, so acPower at those inputs is 62.70, not the
claimed 62.68. -/
theorem C5_counterexample :
    ((19517 : ℚ) / 1000 * ((3213 : ℚ) / 1000) = 62708121 / 1000000)
    ∧ truncate2 ((19517 : ℚ) / 1000 * ((3213 : ℚ) / 1000)) = 6270 / 100
    ∧ truncate2 ((19517 : ℚ) / 1000 * ((3213 : ℚ) / 1000)) ≠ 6268 / 100 := by
  have hprod : (19517 : ℚ) / 1000 * ((3213 : ℚ) / 1000) = 62708121 / 1000000 := by
    norm_num
  have htr : truncate2 ((19517 : ℚ) / 1000 * ((3213 : ℚ) / 1000)) = 6270 / 100 := by
    have h := truncate2_eq_of_nonneg ((19517 : ℚ) / 1000 * ((3213 : ℚ) / 1000)) 6270
      (by norm_num) (by norm_num) (by norm_num)
    rw [h]
    norm_num
  exact ⟨hprod, htr, by rw [htr]; norm_num⟩

/-- Claim C5 (amended): acPower and batteryPower are the two-decimal
toward-zero truncations (never roundings) of the products of the
snapshot's input voltage/amperage and battery voltage/amperage; the
code's `math.Trunc(f*100)/100` coincides with the spec's signed
truncation for every argument.  The true product 19.517 × 3.213 =
62.708121 truncates to 62.70 (not 62.71, as rounding would give), the
negated product to −62.70, and a raw product of 62.688321 — the number
the claim quotes — would truncate to 62.68, not 62.69. -/
theorem C5_power_truncation : ∀ raw : RawRecord,
    ((power.snapshotOf raw).Calculations.ACPower
        = truncate2 ((power.snapshotOf raw).Adapter.InputVoltage
            * (power.snapshotOf raw).Adapter.InputAmperage))
    ∧ ((power.snapshotOf raw).Calculations.BatteryPower
        = truncate2 ((power.snapshotOf raw).Battery.Voltage
            * (power.snapshotOf raw).Battery.Amperage))
    ∧ (∀ x : ℚ, truncate x = truncate2 x)
    ∧ truncate2 ((19517 : ℚ) / 1000 * ((3213 : ℚ) / 1000)) = 6270 / 100
    ∧ truncate2 ((19517 : ℚ) / 1000 * ((3213 : ℚ) / 1000)) ≠ 6271 / 100
    ∧ truncate2 (-((19517 : ℚ) / 1000 * ((3213 : ℚ) / 1000))) = -(6270 / 100)
    ∧ truncate2 ((62688321 : ℚ) / 1000000) = 6268 / 100
    ∧ truncate2 ((62688321 : ℚ) / 1000000) ≠ 6269 / 100 := by
  intro raw
  have htr : truncate2 ((19517 : ℚ) / 1000 * ((3213 : ℚ) / 1000)) = 6270 / 100 := by
    have h := truncate2_eq_of_nonneg ((19517 : ℚ) / 1000 * ((3213 : ℚ) / 1000)) 6270
      (by norm_num) (by norm_num) (by norm_num)
    rw [h]
    norm_num
  have hq : truncate2 ((62688321 : ℚ) / 1000000) = 6268 / 100 := by
    have h := truncate2_eq_of_nonneg ((62688321 : ℚ) / 1000000) 6268
      (by norm_num) (by norm_num) (by norm_num)
    rw [h]
    norm_num
  refine ⟨(power.snap_ACPower raw).trans (truncate_eq_truncate2 _),
    (power.snap_BatteryPower raw).trans (truncate_eq_truncate2 _),
    truncate_eq_truncate2, htr, by rw [htr]; norm_num, ?_, hq, by rw [hq]; norm_num⟩
  have h := truncate2_eq_of_neg (-((19517 : ℚ) / 1000 * ((3213 : ℚ) / 1000))) 6270
    (by norm_num) (by norm_num) (by norm_num)
  rw [h]
  norm_num

/-- Claim C6: systemPower is `truncate` applied to the difference of the
already-truncated acPower and batteryPower snapshot values, and because
both operands are hundredth-grid values that truncation is lossless:
systemPower equals the plain difference. -/
theorem C6_system_power : ∀ raw : RawRecord,
    ((power.snapshotOf raw).Calculations.SystemPower
        = truncate2 ((power.snapshotOf raw).Calculations.ACPower
            - (power.snapshotOf raw).Calculations.BatteryPower))
    ∧ ((power.snapshotOf raw).Calculations.SystemPower
        = (power.snapshotOf raw).Calculations.ACPower
            - (power.snapshotOf raw).Calculations.BatteryPower)
    ∧ (∀ x y : ℚ, truncate2 (truncate2 x - truncate2 y) = truncate2 x - truncate2 y) := by
  intro raw
  have hnl : ∀ x y : ℚ, truncate2 (truncate2 x - truncate2 y)
      = truncate2 x - truncate2 y := by
    intro x y
    rw [← truncate_eq_truncate2 x, ← truncate_eq_truncate2 y,
      ← truncate_eq_truncate2 (truncate x - truncate y)]
    exact truncate_sub_truncate x y
  refine ⟨(power.snap_SystemPower raw).trans (truncate_eq_truncate2 _), ?_, hnl⟩
  rw [power.snap_SystemPower raw, power.snap_ACPower raw, power.snap_BatteryPower raw]
  exact truncate_sub_truncate _ _

/-- Claim C7: the three power-flow outputs are computed for every
successfully fetched record from the electrical fields alone (the
right-hand sides mention no capacity field), and in particular still when
designCapacity ≤ 0 and the health derivation is skipped. -/
theorem C7_powerflow_always : ∀ raw : RawRecord,
    ((power.snapshotOf raw).Calculations.ACPower
        = truncate2 ((raw.sourceVoltage : ℚ) / 1000 * ((raw.sourceAmperage : ℚ) / 1000)))
    ∧ ((power.snapshotOf raw).Calculations.BatteryPower
        = truncate2 ((raw.voltage : ℚ) / 1000 * ((raw.amperage : ℚ) / 1000)))
    ∧ ((power.snapshotOf raw).Calculations.SystemPower
        = truncate2 ((power.snapshotOf raw).Calculations.ACPower
            - (power.snapshotOf raw).Calculations.BatteryPower))
    ∧ (raw.designCapacity ≤ 0 →
        ((power.snapshotOf raw).Calculations.ACPower
            = truncate2 ((raw.sourceVoltage : ℚ) / 1000 * ((raw.sourceAmperage : ℚ) / 1000)))
        ∧ ((power.snapshotOf raw).Calculations.BatteryPower
            = truncate2 ((raw.voltage : ℚ) / 1000 * ((raw.amperage : ℚ) / 1000)))
        ∧ ((power.snapshotOf raw).Calculations.SystemPower
            = truncate2 ((power.snapshotOf raw).Calculations.ACPower
                - (power.snapshotOf raw).Calculations.BatteryPower))) := by
  intro raw
  have hac : (power.snapshotOf raw).Calculations.ACPower
      = truncate2 ((raw.sourceVoltage : ℚ) / 1000 * ((raw.sourceAmperage : ℚ) / 1000)) := by
    rw [power.snap_ACPower raw, power.snap_InputVoltage raw, power.snap_InputAmperage raw,
      truncate_eq_truncate2]
  have hbat : (power.snapshotOf raw).Calculations.BatteryPower
      = truncate2 ((raw.voltage : ℚ) / 1000 * ((raw.amperage : ℚ) / 1000)) := by
    rw [power.snap_BatteryPower raw, power.snap_Voltage raw, power.snap_Amperage raw,
      truncate_eq_truncate2]
  have hsys : (power.snapshotOf raw).Calculations.SystemPower
      = truncate2 ((power.snapshotOf raw).Calculations.ACPower
          - (power.snapshotOf raw).Calculations.BatteryPower) := by
    rw [power.snap_SystemPower raw, truncate_eq_truncate2]
  exact ⟨hac, hbat, hsys, fun _ => ⟨hac, hbat, hsys⟩⟩

/-- Witness for C7_powerflow_always at a record with designCapacity = −1. -/
theorem C7_powerflow_always_witness :
    rawNegDesign.designCapacity ≤ 0
    ∧ ((power.snapshotOf rawNegDesign).Calculations.ACPower
        = truncate2 ((rawNegDesign.sourceVoltage : ℚ) / 1000
            * ((rawNegDesign.sourceAmperage : ℚ) / 1000))) :=
  ⟨by decide, ((C7_powerflow_always rawNegDesign).2.2.2 (by decide)).1⟩

/-- Claim C8: the snapshot's cell-voltage sequence is the first
min(reported, 16) raw entries: never more than 16, the copied count is
clamped to the 16-slot destination inside `get_long_array_prop`, and a
20-entry raw array yields exactly 16 entries. -/
theorem C8_cell_truncation : ∀ raw : RawRecord,
    ((power.snapshotOf raw).Battery.IndividualCellVoltages = raw.cellVoltages.take 16)
    ∧ ((power.snapshotOf raw).Battery.IndividualCellVoltages.length
        = min raw.cellVoltages.length 16)
    ∧ ((power.snapshotOf raw).Battery.IndividualCellVoltages.length ≤ 16)
    ∧ ((get_long_array_prop raw.cellVoltages 16).2 ≤ 16)
    ∧ (16 < raw.cellVoltages.length →
        (power.snapshotOf raw).Battery.IndividualCellVoltages.length = 16)
    ∧ (raw.cellVoltages.length = 20 →
        (power.snapshotOf raw).Battery.IndividualCellVoltages.length = 16) := by
  intro raw
  have hc := power.snap_cells raw
  have hlen : (power.snapshotOf raw).Battery.IndividualCellVoltages.length
      = min raw.cellVoltages.length 16 := by
    rw [hc, List.length_take, min_comm]
  refine ⟨hc, hlen, by rw [hlen]; omega,
    by rw [get_long_array_prop_snd]; omega, ?_, ?_⟩
  · intro h
    rw [hlen]
    omega
  · intro h
    rw [hlen]
    omega

/-- Witness for C8_cell_truncation at a 20-entry raw array. -/
theorem C8_cell_truncation_witness :
    rawTwenty.cellVoltages.length = 20
    ∧ (power.snapshotOf rawTwenty).Battery.IndividualCellVoltages.length = 16 :=
  ⟨by decide, (C8_cell_truncation rawTwenty).2.2.2.2.2 (by decide)⟩

/-- Claim C9: a nonzero reader return code (1 service class not found,
2 matching query rejected, 3 no device instance, 4 property fetch failed)
makes GetBatteryInfo of either revision return exactly that error and no
snapshot; no mapping or derivation happens on that path. -/
theorem C9_fetch_error : ∀ (ret : ℤ) (raw : RawRecord), ret ≠ 0 →
    power.GetBatteryInfo ret raw = Except.error ret
    ∧ iokit.GetBatteryInfo ret raw = Except.error ret := by
  intro ret raw h
  constructor
  · unfold power.GetBatteryInfo
    rw [if_pos h]
  · unfold iokit.GetBatteryInfo
    rw [if_pos h]

/-- Witness for C9_fetch_error at return code 3 (no matching device). -/
theorem C9_fetch_error_witness :
    (3 : ℤ) ≠ 0 ∧ power.GetBatteryInfo 3 rawZero = Except.error 3 :=
  ⟨by decide, (C9_fetch_error 3 rawZero (by decide)).1⟩

/-- Claim C10: the derivation touches only the Calculations group: the
power revision's calculateDerivedMetrics leaves State, Battery (including
the cell-voltage sequence) and Adapter untouched, and the iokit
revision's calculateHealthMetrics leaves every non-Calculations group
untouched. -/
theorem C10_frame : ∀ (info : power.BatteryInfo) (info2 : iokit.BatteryInfo),
    ((power.calculateDerivedMetrics info).State = info.State
      ∧ (power.calculateDerivedMetrics info).Battery = info.Battery
      ∧ (power.calculateDerivedMetrics info).Adapter = info.Adapter)
    ∧ ((iokit.calculateHealthMetrics info2).IsCharging = info2.IsCharging
      ∧ (iokit.calculateHealthMetrics info2).IsConnected = info2.IsConnected
      ∧ (iokit.calculateHealthMetrics info2).FullyCharged = info2.FullyCharged
      ∧ (iokit.calculateHealthMetrics info2).Health = info2.Health
      ∧ (iokit.calculateHealthMetrics info2).Capacity = info2.Capacity
      ∧ (iokit.calculateHealthMetrics info2).Charge = info2.Charge
      ∧ (iokit.calculateHealthMetrics info2).Battery = info2.Battery
      ∧ (iokit.calculateHealthMetrics info2).Power = info2.Power
      ∧ (iokit.calculateHealthMetrics info2).Hardware = info2.Hardware
      ∧ (iokit.calculateHealthMetrics info2).Adapter = info2.Adapter
      ∧ (iokit.calculateHealthMetrics info2).PowerSourceInput = info2.PowerSourceInput) := by
  intro info info2
  exact ⟨⟨power.calcDM_State info, power.calcDM_Battery info, power.calcDM_Adapter info⟩,
    iokit.calcHM_frame info2⟩
